import Mathlib

/-!
# Verification of the `lmdbstore` single-writer serialization layer

Shallow embedding of `src/lmdbstore.go` (package `lmdbstore`), a wrapper
around the LMDB storage engine.  The underlying engine (`lmdb-go`) is an
external collaborator: it is modelled here as a per-namespace association
list with the standard LMDB key/value semantics (unique keys, `MDB_NOTFOUND`
on absent keys, write transactions that commit or abort atomically).

Value encode/decode functions (`Marshal`/`Unmarshal` in the Go source) are
opaque callables.  Definitions are parametric in the types `M` and `U` of
those callables, so the initialization layer (which only *selects and
stores* them) can be instantiated with opaque tokens, while the operation
layer instantiates them with actual Lean functions.

Go-specific behavior modelled explicitly:
* `copy(dst, src)` copies `min (len dst) (len src)` bytes into the front of
  `dst` and never grows `dst` (`goCopy` below);
* struct fields omitted from a composite literal get their zero value: a
  channel field omitted from the literal is `nil`, and both send and receive
  on a `nil` channel block forever (tracked by the `*ChanNil` flags below);
* calling a `nil` function value panics (modelled as the distinguished
  error `nilFunctionPanic`; no claim exercises this path).
-/

/-- Byte strings (`[]byte` in Go) as lists of byte values. -/
abbrev Bytes := List Nat

/-- Contents of one LMDB namespace (`lmdb.DBI`): an association list from
keys to values.  Model of the external engine's B+tree. -/
abbrev EngineDb := List (Bytes × Bytes)

/-- Errors surfaced by the layer.  `notFound` models `MDB_NOTFOUND` from the
engine; the `String`-free constructors model the `errors.New`/`fmt.Errorf`
values created in `lmdbstore.go`. -/
inductive StoreError where
  /-- Engine signal for an absent key (`MDB_NOTFOUND`). -/
  | notFound
  /-- `errors.New("zero length bytes from database")` in `GetAndMarshal`. -/
  | zeroLengthBytes
  /-- `errors.New("no databases is setup")` in `NewLmdb`. -/
  | noDatabasesSetup
  /-- `errors.New("number of databases configured LmdbEnv is not 1")`. -/
  | notSingleDatabase
  /-- `errors.New("no database is configured in LmdbEnv")` (dead code path). -/
  | noDatabaseConfigured
  /-- A user marshal/unmarshal function returned an error. -/
  | codecError (tag : Nat)
  /-- Go panic from calling a `nil` function value, kept as a distinguished
  error so the model stays total; no verified claim reaches this path. -/
  | nilFunctionPanic
deriving DecidableEq, Repr

/-- Engine model: look a key up in a namespace. -/
def dbLookup : EngineDb → Bytes → Option Bytes
  | [], _ => none
  | (k, v) :: rest, key => if k = key then some v else dbLookup rest key

/-- Engine model: remove every binding of a key from a namespace.  LMDB
keys are unique, so on well-formed states this removes at most one. -/
def dbErase (db : EngineDb) (key : Bytes) : EngineDb :=
  db.filter (fun p => p.1 ≠ key)

/-- Engine model: bind a key (replacing any existing binding). -/
def dbInsert (db : EngineDb) (key v : Bytes) : EngineDb :=
  (key, v) :: dbErase db key

/-- Engine model of `txn.Get(dbi, key)`: the stored value, or
`MDB_NOTFOUND`. -/
def txnGet (db : EngineDb) (key : Bytes) : Except StoreError Bytes :=
  match dbLookup db key with
  | some v => .ok v
  | none => .error .notFound

/-- Engine model of `txn.Put(dbi, key, v, 0)`. -/
def txnPut (db : EngineDb) (key v : Bytes) : EngineDb :=
  dbInsert db key v

/-- Engine model of `txn.Del(dbi, key, val)`: deleting an absent key
returns `MDB_NOTFOUND`.  (For a non-DUPSORT database the `val` argument —
`zeroLengthBytes` in the Go source — is ignored by the engine.) -/
def txnDel (db : EngineDb) (key : Bytes) : Except StoreError EngineDb :=
  match dbLookup db key with
  | some _ => .ok (dbErase db key)
  | none => .error .notFound

/-- Engine model of `txn.Drop(dbi, false)`: remove all keys, keep the
namespace handle. -/
def txnDrop (_db : EngineDb) : EngineDb := ([] : EngineDb)

/-- A write-transaction function (`lmdb.TxnOp` restricted to one
namespace): it may read and rewrite the namespace, or fail. -/
abbrev TxnOp := EngineDb → Except StoreError EngineDb

/-- Engine model of `lmdbEnv.UpdateLocked(op)`: run a write transaction;
on error the transaction aborts and the state is unchanged (no partial
writes), on success the new state is committed. -/
def UpdateLocked (db : EngineDb) (op : TxnOp) : EngineDb × Option StoreError :=
  match op db with
  | .ok db2 => (db2, none)
  | .error e => (db, some e)

/-- Go's `copy(dst, src)`: copies `min (len dst) (len src)` elements into
the front of `dst`; the destination never grows. -/
def goCopy (dst src : Bytes) : Bytes :=
  let n := min dst.length src.length
  src.take n ++ dst.drop n

/-- The `Db` struct of `lmdbstore.go`.  `M` and `U` are the types of the
stored `marshal`/`unmarshal` callables; in Go these fields hold function
values that may be `nil`, modelled by `Option`.  `createdFrom` models Go
pointer identity: `NewLmdb` allocates a fresh `*Db` per config entry, and
`createdFrom` records which entry (its index) a handle was allocated for. -/
structure Db (M U : Type) where
  dbi : Nat
  createdFrom : Nat
  marshal : Option M
  unmarshal : Option U
deriving DecidableEq, Repr

/-- The type of a stored marshal function once instantiated with real
behavior: a value of type `α` to bytes, or an error. -/
abbrev MarshalFn (α : Type) := α → Except StoreError Bytes

/-- The type of a stored unmarshal function once instantiated with real
behavior: bytes to a value of type `α`, or an error. -/
abbrev UnmarshalFn (α : Type) := Bytes → Except StoreError α

/-- The `value interface{}` argument of `Db.Put`: Go inspects the dynamic
type, so the input is a tagged choice between a raw `[]byte` (stored
verbatim) and any other value (marshalled first). -/
inductive PutValue (α : Type) where
  | raw (b : Bytes)
  | typed (v : α)

/-- `Db.UpdateTxn`: hand `op` to the update worker over the channel and
block on the private reply channel.  The worker runs `UpdateLocked op`;
the observable effect for the caller is the engine-state change and the
returned error. -/
def Db.UpdateTxn (_s : Db M U) (db : EngineDb) (op : TxnOp) :
    EngineDb × Option StoreError :=
  UpdateLocked db op

/-- `Db.Put`: a `[]byte` value is stored unmodified; any other value is
passed through the stored `marshal` function (a `nil` function would
panic in Go).  Routed through `UpdateTxn`. -/
def Db.Put (s : Db (MarshalFn α) U) (db : EngineDb) (key : Bytes)
    (value : PutValue α) : EngineDb × Option StoreError :=
  s.UpdateTxn db (fun txn =>
    match value with
    | .raw v => .ok (txnPut txn key v)
    | .typed v =>
      match s.marshal with
      | none => .error .nilFunctionPanic
      | some m =>
        match m v with
        | .error err => .error err
        | .ok b => .ok (txnPut txn key b))

/-- `Db.Del`: routed through `UpdateTxn`; the engine's not-found signal for
an absent key propagates unchanged. -/
def Db.Del (s : Db M U) (db : EngineDb) (key : Bytes) :
    EngineDb × Option StoreError :=
  s.UpdateTxn db (fun txn => txnDel txn key)

/-- `Db.Drop`: empty the database, routed through `UpdateTxn`. -/
def Db.Drop (s : Db M U) (db : EngineDb) : EngineDb × Option StoreError :=
  s.UpdateTxn db (fun txn => .ok (txnDrop txn))

/-- `Db.Get`: runs a read transaction (`View`) directly, off the worker.
The Go source declares the named result `b []byte` (zero value: `nil`,
length 0) and then does `copy(b, bOri)` — which copies
`min (len b) (len bOri) = 0` bytes, so on success the returned slice is
`b` unchanged, i.e. empty.  Modelled faithfully via `goCopy [] bOri`. -/
def Db.Get (_s : Db M U) (db : EngineDb) (key : Bytes) :
    Except StoreError Bytes :=
  match txnGet db key with
  | .error e => .error e
  | .ok bOri => .ok (goCopy ([] : Bytes) bOri)

/-- `Db.GetAndMarshal`: read transaction; absent key propagates the engine
error; a zero-length stored value is rejected before the unmarshal function
is ever consulted; otherwise the bytes are copied into a fresh buffer
(`b := make([]byte, len(bOri)); copy(b, bOri)`) and passed to the stored
`unmarshal` function. -/
def Db.GetAndMarshal (s : Db M (UnmarshalFn α)) (db : EngineDb)
    (key : Bytes) : Except StoreError α :=
  match txnGet db key with
  | .error e => .error e
  | .ok bOri =>
    if bOri.length = 0 then
      .error .zeroLengthBytes
    else
      match s.unmarshal with
      | none => .error .nilFunctionPanic
      | some u => u (goCopy (List.replicate bOri.length 0) bOri)

/-! ## Environment layer: configuration, `NewLmdb`, accessors -/

/-- `DbConfig`: one logical database in the configuration.  Per the doc
comments in the source, `Marshal`/`Unmarshal` are optional per-database
overrides. -/
structure DbConfig (M U : Type) where
  DbName : String
  Marshal : Option M
  Unmarshal : Option U
deriving DecidableEq, Repr

/-- `LmdbEnvConfig`: the declarative configuration consumed by `NewLmdb`.
`OpenFlag`, `OpenFSMode`, `MapSize`, `MaxReaders` are opaque engine
parameters (external collaborator); they are carried but take no part in
any verified claim. -/
structure LmdbEnvConfig (M U : Type) where
  OpenPath : String
  OpenFlag : Nat
  OpenFSMode : Nat
  MapSize : Int
  MaxReaders : Nat
  Databases : List (DbConfig M U)
  Marshal : Option M
  Unmarshal : Option U

/-- Go map assignment `m[k] = v`: replace any existing binding of `k`. -/
def mapInsert (m : List (String × β)) (k : String) (v : β) :
    List (String × β) :=
  (k, v) :: m.filter (fun p => p.1 ≠ k)

/-- Go map read `m[k]` for a pointer-valued map: the stored value, or
`nil` (`none`) when absent. -/
def mapLookup (m : List (String × β)) (k : String) : Option β :=
  match m with
  | [] => none
  | (k', v) :: rest => if k' = k then some v else mapLookup rest k

/-- The `LmdbEnv` struct.  The two channel fields are modelled by whether
they are `nil`: `updateWorkerChan` is created with `make` in `NewLmdb`,
while `quitChan` is absent from the composite literal and therefore keeps
its zero value `nil` (send and receive on it block forever). -/
structure LmdbEnvModel (M U : Type) where
  databases : List (String × Db M U)
  updateWorkerChanNil : Bool
  quitChanNil : Bool
  marshal : Option M
  unmarshal : Option U

/-- Observable side effects of `NewLmdb` on the engine and the runtime, in
program order, used to state that the empty-configuration check fires
before any resource is touched. -/
inductive InitEffect where
  /-- `lmdb.NewEnv()` allocated the environment resource. -/
  | envCreated
  /-- `lmdbEnv.Open(path, flag, mode)` opened the storage file. -/
  | envOpened
  /-- `txn.CreateDBI(name)` created/opened one namespace. -/
  | dbiCreated (name : String)
  /-- The update-worker goroutine was started (`go func() {...}`). -/
  | workerStarted
deriving DecidableEq, Repr

/-- Engine model of `txn.CreateDBI(name)`: LMDB returns the existing
handle for a name already created in this environment, otherwise
allocates a fresh one.  State: the name→DBI table and the next free DBI. -/
def createDBI (tab : List (String × Nat)) (next : Nat) (n : String) :
    Nat × List (String × Nat) × Nat :=
  match mapLookup tab n with
  | some d => (d, tab, next)
  | none => (next, mapInsert tab n next, next + 1)

/-- The `for _, dbConfig := range config.Databases` loop of `NewLmdb`: for
each entry it allocates a fresh `*Db` whose `marshal`/`unmarshal` fields
are copied from the *environment's* fields (`lmdbHandler.marshal`; the
entry's own `dbConfig.Marshal`/`Unmarshal` are never read by the source),
creates the DBI via a write transaction, and assigns the handle into the
name→handle map (overwriting any previous binding of the same name).
Arguments after the entry list: the map being built, the engine's
name→DBI table, the next free DBI, the index of the current entry
(modelling pointer identity of the allocated handle), and the effect
trace so far.  Returns the final map and trace. -/
def createLoop (em : Option M) (eu : Option U) :
    List (DbConfig M U) → List (String × Db M U) →
    List (String × Nat) → Nat → Nat → List InitEffect →
    List (String × Db M U) × List InitEffect
  | [], dbs, _tab, _next, _idx, effs => (dbs, effs)
  | e :: rest, dbs, tab, next, idx, effs =>
    let d := (createDBI tab next e.DbName).1
    let tab2 := (createDBI tab next e.DbName).2.1
    let next2 := (createDBI tab next e.DbName).2.2
    let db : Db M U :=
      { dbi := d, createdFrom := idx, marshal := em, unmarshal := eu }
    createLoop em eu rest (mapInsert dbs e.DbName db) tab2 next2 (idx + 1)
      (effs ++ [.dbiCreated e.DbName])

/-- `NewLmdb`: rejects an empty `Databases` list before any engine call;
otherwise creates and opens the environment, runs the creation loop, and
starts the worker goroutine.  Engine-level failures (`NewEnv`, `SetMapSize`,
`Open`, `CreateDBI`) belong to the external collaborator and are modelled
as succeeding.  Returns the effect trace together with the result. -/
def NewLmdb (config : LmdbEnvConfig M U) :
    List InitEffect × Except StoreError (LmdbEnvModel M U) :=
  if config.Databases.length < 1 then
    ([], .error .noDatabasesSetup)
  else
    let r := createLoop config.Marshal config.Unmarshal config.Databases
      [] [] 0 0 []
    let env : LmdbEnvModel M U :=
      { databases := r.1
        updateWorkerChanNil := false
        quitChanNil := true
        marshal := config.Marshal
        unmarshal := config.Unmarshal }
    (InitEffect.envCreated :: InitEffect.envOpened :: r.2
        ++ [InitEffect.workerStarted],
      .ok env)

/-- `LmdbEnv.GetDatabase(dbName)`: plain map lookup; `nil` when absent. -/
def LmdbEnvModel.GetDatabase (l : LmdbEnvModel M U) (dbName : String) :
    Option (Db M U) :=
  mapLookup l.databases dbName

/-- `LmdbEnv.GetSingleDatabase`: errors unless the name→handle map has
exactly one entry, in which case the range loop returns that entry (the
trailing `return nil, errors.New(...)` is unreachable after the length
check). -/
def LmdbEnvModel.GetSingleDatabase (l : LmdbEnvModel M U) :
    Except StoreError (Db M U) :=
  if l.databases.length ≠ 1 then
    .error .notSingleDatabase
  else
    match l.databases with
    | (_, v) :: _ => .ok v
    | [] => .error .noDatabaseConfigured

/-- `LmdbEnv.Close` does `e.quitChan <- false`.  A send on a `nil` channel
blocks forever, so `Close` completes only if `quitChan` is non-nil; the
model reports whether the call can complete. -/
def LmdbEnvModel.CloseCompletes (e : LmdbEnvModel M U) : Bool :=
  !e.quitChanNil

/-! ## The update-worker goroutine (Write Dispatcher) -/

/-- One message the worker's `select` can receive: a write request from
`updateWorkerChan` (tagged with the submitting caller's id so ordering is
observable), or the quit signal from `quitChan`. -/
inductive WorkerMsg where
  | request (id : Nat) (op : TxnOp)
  | quit

/-- Worker-visible state: the engine namespace, the results delivered back
over the requests' private reply channels (in delivery order), and the
flags set by the quit branch (`lmdbEnv.Sync(true)`; `lmdbEnv.Close()`). -/
structure WorkerSt where
  engine : EngineDb
  delivered : List (Nat × Option StoreError)
  synced : Bool
  envClosed : Bool

/-- One iteration of the worker's `for { select { ... } }` loop.  A request
is executed synchronously via `UpdateLocked` and its result sent back
before the next message is received.  The quit branch syncs and closes the
environment — and then the loop *continues*: the Go source has no `return`
or `break` in that branch, so the goroutine goes back to the `select`. -/
def workerStep (st : WorkerSt) : WorkerMsg → WorkerSt
  | .request i op =>
    { st with
      engine := (UpdateLocked st.engine op).1
      delivered := st.delivered ++ [(i, (UpdateLocked st.engine op).2)] }
  | .quit =>
    { st with synced := true, envClosed := true }

/-- The worker loop over the whole (finite) sequence of messages it
receives, in channel-reception order. -/
def runWorker (msgs : List WorkerMsg) (st : WorkerSt) : WorkerSt :=
  msgs.foldl workerStep st

/-- The ids of the write requests in a message sequence, in order. -/
def requestIds : List WorkerMsg → List Nat
  | [] => []
  | .request i _ :: rest => i :: requestIds rest
  | .quit :: rest => requestIds rest

/-- Begin/end events of write transactions as the worker executes them.
Each received request is executed to completion (start, then finish)
before the loop receives the next message — the `select` body is
synchronous. -/
inductive Event where
  | start (id : Nat)
  | finish (id : Nat)
deriving DecidableEq, Repr

/-- The event trace the worker produces on a message sequence. -/
def workerEvents : List WorkerMsg → List Event
  | [] => []
  | .request i _ :: rest => .start i :: .finish i :: workerEvents rest
  | .quit :: rest => workerEvents rest

/-- The ids of transaction starts in an event trace, in order. -/
def startIds : List Event → List Nat
  | [] => []
  | .start i :: rest => i :: startIds rest
  | .finish _ :: rest => startIds rest

/-- Checks that a trace never has more than one write transaction open:
`n` is the number currently open; a start requires `n = 0`, a finish
requires `n = 1`. -/
def atMostOneOpen : List Event → Nat → Bool
  | [], _ => true
  | .start _ :: rest, n => n == 0 && atMostOneOpen rest 1
  | .finish _ :: rest, n => n == 1 && atMostOneOpen rest 0

/-! ## Spec-side helper definitions -/

/-- Index (0-based, in list order) of the *last* configuration entry with
the given database name, if any. -/
def lastIdxNamed : List (DbConfig M U) → String → Option Nat
  | [], _ => none
  | e :: rest, n =>
    match lastIdxNamed rest n with
    | some j => some (j + 1)
    | none => if e.DbName = n then some 0 else none

/-- Effect of a sequence of Go map assignments on the key list: each
assignment of key `n` replaces any existing binding, so the key moves to
the front and earlier copies disappear. -/
def keysAfter (ns : List String) (ks : List String) : List String :=
  ns.foldl (fun ks n => n :: ks.filter (fun s => s ≠ n)) ks

/-- Number of distinct database names in a configuration list. -/
def distinctNameCount (entries : List (DbConfig M U)) : Nat :=
  (keysAfter (entries.map DbConfig.DbName) []).length

/-! ## Concrete instances used by closed theorems and witnesses

For the initialization layer the marshal/unmarshal callables are opaque,
so they are instantiated with `Nat` tokens naming the function values. -/

/-- Token for the function value `msgpack.MarshalAsArray`. -/
def msgpackMarshalAsArrayTok : Nat := 0

/-- Token for the function value `msgpack.UnmarshalAsArray`. -/
def msgpackUnmarshalAsArrayTok : Nat := 0

/-- `DefaultLmdbConfig` from the source: current directory, permission
mode `0644` (420), 1 GiB map, one reader, a single database named
"default" with no per-database overrides, msgpack codec at the
environment level.  `OpenFlag` is omitted in the Go literal (zero). -/
def DefaultLmdbConfig : LmdbEnvConfig Nat Nat :=
  { OpenPath := "."
    OpenFlag := 0
    OpenFSMode := 420
    MapSize := 2 ^ 30
    MaxReaders := 1
    Databases := [{ DbName := "default", Marshal := none, Unmarshal := none }]
    Marshal := some msgpackMarshalAsArrayTok
    Unmarshal := some msgpackUnmarshalAsArrayTok }

/-- A configuration declaring zero databases. -/
def emptyCfg : LmdbEnvConfig Nat Nat :=
  { DefaultLmdbConfig with Databases := [] }

/-- A configuration declaring two databases with the same name "a". -/
def dupCfg : LmdbEnvConfig Nat Nat :=
  { DefaultLmdbConfig with
    Databases :=
      [{ DbName := "a", Marshal := none, Unmarshal := none },
       { DbName := "a", Marshal := none, Unmarshal := none }] }

/-- A configuration with a per-database codec override (tokens 7/8) and no
environment-level codec. -/
def c3CfgDbOverride : LmdbEnvConfig Nat Nat :=
  { DefaultLmdbConfig with
    Databases := [{ DbName := "a", Marshal := some 7, Unmarshal := some 8 }]
    Marshal := none
    Unmarshal := none }

/-- A configuration with both an environment-level codec (tokens 5/6) and
a per-database override (tokens 7/8). -/
def c3CfgBothOverrides : LmdbEnvConfig Nat Nat :=
  { DefaultLmdbConfig with
    Databases := [{ DbName := "a", Marshal := some 7, Unmarshal := some 8 }]
    Marshal := some 5
    Unmarshal := some 6 }

/-- A configuration with no codec given at either level. -/
def c3CfgNoOverrides : LmdbEnvConfig Nat Nat :=
  { DefaultLmdbConfig with
    Databases := [{ DbName := "a", Marshal := none, Unmarshal := none }]
    Marshal := none
    Unmarshal := none }

/-- A concrete handle for byte-level operations (codec never consulted on
the raw-bytes paths exercised with it). -/
def rawDb : Db (MarshalFn Nat) (UnmarshalFn Nat) :=
  { dbi := 0, createdFrom := 0, marshal := none, unmarshal := none }

/-- A concrete handle whose unmarshal function accepts any bytes. -/
def okCodecDb : Db (MarshalFn Nat) (UnmarshalFn Nat) :=
  { dbi := 0, createdFrom := 0
    marshal := some (fun n => .ok [n])
    unmarshal := some (fun _ => .ok 0) }

/-- The worker's initial state: empty namespace, nothing delivered, not
synced, environment open. -/
def workerInit : WorkerSt :=
  { engine := [], delivered := [], synced := false, envClosed := false }

/-- The environment handle produced by `NewLmdb DefaultLmdbConfig`
(extracted from the `Except`; the fallback is never used since the
default configuration has one database). -/
def defaultEnv : LmdbEnvModel Nat Nat :=
  ((NewLmdb DefaultLmdbConfig).2.toOption).getD
    { databases := [], updateWorkerChanNil := true, quitChanNil := true
      marshal := none, unmarshal := none }

/-- The environment handle produced by `NewLmdb dupCfg` (extracted from
the `Except`; the fallback is never used since `dupCfg` has databases). -/
def dupEnv : LmdbEnvModel Nat Nat :=
  ((NewLmdb dupCfg).2.toOption).getD
    { databases := [], updateWorkerChanNil := true, quitChanNil := true
      marshal := none, unmarshal := none }

/-- A concrete message sequence for exercising the dispatcher: three
requests, the middle one failing. -/
def c4Msgs : List WorkerMsg :=
  [.request 3 (fun d => .ok (txnPut d [1] [10])),
   .request 1 (fun _ => .error .notFound),
   .request 2 (fun d => .ok (txnPut d [1] [20]))]

/-! ## Helper lemmas -/

theorem dbLookup_erase_self (db : EngineDb) (key : Bytes) :
    dbLookup (dbErase db key) key = none := by
  induction db with
  | nil => rfl
  | cons p rest ih =>
    by_cases h : p.1 = key
    · simpa [dbErase, List.filter, h] using ih
    · simpa [dbErase, List.filter, h, dbLookup] using ih

theorem dbLookup_insert_self (db : EngineDb) (key v : Bytes) :
    dbLookup (dbInsert db key v) key = some v := by
  simp [dbInsert, dbLookup]

theorem mapLookup_filter_ne {β : Type} (m : List (String × β)) (k k' : String)
    (h : k ≠ k') :
    mapLookup (m.filter (fun p => !decide (p.1 = k))) k' = mapLookup m k' := by
  induction m with
  | nil => rfl
  | cons p rest ih =>
    by_cases hp : p.1 = k
    · simp [List.filter, hp, mapLookup, h, ih]
    · by_cases hq : p.1 = k'
      · simp [List.filter, hp, mapLookup, hq, Ne.symm h]
      · simp [List.filter, hp, mapLookup, hq, ih]

theorem mapLookup_insert {β : Type} (m : List (String × β)) (k k' : String)
    (v : β) :
    mapLookup (mapInsert m k v) k' =
      if k = k' then some v else mapLookup m k' := by
  by_cases h : k = k'
  · simp [mapInsert, mapLookup, h]
  · simp [mapInsert, mapLookup, h, mapLookup_filter_ne m k k' h]

theorem map_fst_filter {β : Type} (m : List (String × β)) (k : String) :
    (m.filter (fun p => !decide (p.1 = k))).map Prod.fst =
      (m.map Prod.fst).filter (fun s => !decide (s = k)) := by
  induction m with
  | nil => rfl
  | cons p rest ih =>
    by_cases hp : p.1 = k
    · simp [List.filter, hp, ih]
    · simp [List.filter, hp, ih]

theorem getAndMarshal_of_lookup_nil (s : Db M (UnmarshalFn α))
    (db : EngineDb) (key : Bytes) (h : dbLookup db key = some []) :
    s.GetAndMarshal db key = .error .zeroLengthBytes := by
  simp [Db.GetAndMarshal, txnGet, h]

theorem createLoop_keys (em : Option M) (eu : Option U)
    (entries : List (DbConfig M U)) :
    ∀ dbs tab next idx effs,
      (createLoop em eu entries dbs tab next idx effs).1.map Prod.fst =
        keysAfter (entries.map DbConfig.DbName) (dbs.map Prod.fst) := by
  induction entries with
  | nil => intro dbs tab next idx effs; rfl
  | cons e rest ih =>
    intro dbs tab next idx effs
    simp only [createLoop, List.map, keysAfter, List.foldl]
    rw [ih]
    simp [keysAfter, mapInsert, map_fst_filter]

theorem createLoop_lookup_none (em : Option M) (eu : Option U)
    (entries : List (DbConfig M U)) (n : String)
    (h : lastIdxNamed entries n = none) :
    ∀ dbs tab next idx effs,
      mapLookup (createLoop em eu entries dbs tab next idx effs).1 n =
        mapLookup dbs n := by
  induction entries with
  | nil => intro dbs tab next idx effs; rfl
  | cons e rest ih =>
    have h1 : lastIdxNamed rest n = none := by
      cases hr : lastIdxNamed rest n with
      | none => rfl
      | some j => simp [lastIdxNamed, hr] at h
    have h2 : e.DbName ≠ n := by
      intro he
      simp [lastIdxNamed, h1, he] at h
    intro dbs tab next idx effs
    simp only [createLoop]
    rw [ih h1]
    rw [mapLookup_insert]
    simp [h2]

theorem createLoop_lookup_some (em : Option M) (eu : Option U)
    (entries : List (DbConfig M U)) (n : String) :
    ∀ (j : Nat), lastIdxNamed entries n = some j →
      ∀ dbs tab next idx effs,
        ∃ db, mapLookup (createLoop em eu entries dbs tab next idx effs).1 n
            = some db ∧
          db.createdFrom = idx + j ∧ db.marshal = em ∧ db.unmarshal = eu := by
  induction entries with
  | nil => intro j h; simp [lastIdxNamed] at h
  | cons e rest ih =>
    intro j h dbs tab next idx effs
    cases hr : lastIdxNamed rest n with
    | some j' =>
      have hj : j = j' + 1 := by
        simp [lastIdxNamed, hr] at h
        omega
      obtain ⟨db, hdb, hcf, hm, hu⟩ := ih j' hr (mapInsert dbs e.DbName
          ⟨(createDBI tab next e.DbName).1, idx, em, eu⟩)
        (createDBI tab next e.DbName).2.1 (createDBI tab next e.DbName).2.2
        (idx + 1) (effs ++ [.dbiCreated e.DbName])
      refine ⟨db, ?_, ?_, hm, hu⟩
      · simpa only [createLoop] using hdb
      · omega
    | none =>
      have he : e.DbName = n := by
        by_cases he : e.DbName = n
        · exact he
        · simp [lastIdxNamed, hr, he] at h
      have hj : j = 0 := by
        simp [lastIdxNamed, hr, he] at h
        omega
      refine ⟨⟨(createDBI tab next e.DbName).1, idx, em, eu⟩, ?_,
        by simp [hj], rfl, rfl⟩
      simp only [createLoop]
      rw [createLoop_lookup_none em eu rest n hr]
      rw [mapLookup_insert]
      simp [he]

theorem getSingleDatabase_isOk_iff (l : LmdbEnvModel M U) :
    l.GetSingleDatabase.isOk = true ↔ l.databases.length = 1 := by
  unfold LmdbEnvModel.GetSingleDatabase
  by_cases h : l.databases.length = 1
  · cases hd : l.databases with
    | nil => rw [hd] at h; simp at h
    | cons p rest =>
      rw [hd] at h
      simp [h, Except.isOk, Except.toBool]
  · simp [h, Except.isOk, Except.toBool]

theorem newLmdb_ok_inv (cfg : LmdbEnvConfig M U) (env : LmdbEnvModel M U)
    (h : (NewLmdb cfg).2 = .ok env) :
    env.databases =
        (createLoop cfg.Marshal cfg.Unmarshal cfg.Databases [] [] 0 0 []).1 ∧
      env.quitChanNil = true ∧ env.updateWorkerChanNil = false ∧
      env.marshal = cfg.Marshal ∧ env.unmarshal = cfg.Unmarshal := by
  unfold NewLmdb at h
  split at h
  · simp at h
  · simp only at h
    cases h
    exact ⟨rfl, rfl, rfl, rfl, rfl⟩

theorem newLmdb_ok_of_nonempty (cfg : LmdbEnvConfig M U)
    (h : cfg.Databases ≠ []) :
    ∃ env, (NewLmdb cfg).2 = .ok env := by
  have hlen : ¬ cfg.Databases.length < 1 := by
    cases hc : cfg.Databases with
    | nil => exact absurd hc h
    | cons a l => simp [hc]
  unfold NewLmdb
  rw [if_neg hlen]
  exact ⟨_, rfl⟩

theorem keysAfter_nodup (ns : List String) :
    ∀ ks : List String, ks.Nodup → (keysAfter ns ks).Nodup := by
  induction ns with
  | nil => intro ks h; exact h
  | cons n rest ih =>
    intro ks h
    simp only [keysAfter, List.foldl]
    apply ih
    refine List.nodup_cons.mpr ⟨?_, h.filter _⟩
    intro hmem
    have hpred := List.of_mem_filter hmem
    simp at hpred

/-! ## Claim theorems -/

/-- C1: the claim states that `Put(k, v)` followed by `Get(k)` returns a
copy of the stored bytes (decoding back to `v`).  The code violates this:
`Get` declares the named result `b []byte` (zero value `nil`, length 0)
and then runs `copy(b, bOri)`, which copies `min (len b) (len bOri) = 0`
bytes, so `Get` returns an empty slice for every stored value — here the
stored bytes are `[42, 43]` but `Get` returns `[]`.  This contradicts
`Get`'s own doc comment ("Get returns the binary value at key inside the
database ... The returned value is copied for safe use") and the correct
copy idiom used a few lines below in `GetAndMarshal`. -/
theorem get_returns_empty_not_stored_bytes :
    (rawDb.Put [] [107, 49] (.raw [42, 43])).2 = none ∧
    dbLookup (rawDb.Put [] [107, 49] (.raw [42, 43])).1 [107, 49]
      = some [42, 43] ∧
    rawDb.Get (rawDb.Put [] [107, 49] (.raw [42, 43])).1 [107, 49]
      = .ok [] ∧
    ([] : Bytes) ≠ [42, 43] :=
  ⟨rfl, rfl, rfl, by decide⟩

/-- C2: the claim states that signalling shutdown via `Close` makes the
worker flush, release the environment and exit, with no request serviced
after shutdown, and that `Close` itself completes.  The code violates
this twice.  First, `NewLmdb`'s composite literal never initializes
`quitChan`, so it is `nil`: `Close`'s send `e.quitChan <- false` blocks
forever (it never completes) and the worker's quit case can never fire.
Second, even when the quit branch runs (modelled below), it has no
`return`: the loop re-enters the `select` and a request received after
the quit signal is still serviced — shown by `delivered = [(0, none)]`
for the message sequence `[quit, request 0]`.  The quit branch does
perform `Sync(true)` and `Close()` (flags below), matching the claim's
flush/release part, but the exit and completion parts fail.  This
contradicts `Close`'s own doc comment ("flushes the Lmdb databases to
disk and stop the updater goroutine"). -/
theorem close_blocks_and_worker_never_exits :
    ((NewLmdb DefaultLmdbConfig).2.map LmdbEnvModel.CloseCompletes)
      = .ok false ∧
    (runWorker [.quit, .request 0 (fun d => .ok d)] workerInit).delivered
      = [(0, none)] ∧
    (runWorker [.quit] workerInit).synced = true ∧
    (runWorker [.quit] workerInit).envClosed = true :=
  ⟨rfl, rfl, rfl, rfl⟩

/-- C3: the claim states that a `Db` uses its per-database encode/decode
override when given, else the environment-level one, and that both levels
default to the msgpack codec.  The code violates all three parts: the
creation loop in `NewLmdb` copies `lmdbHandler.marshal`/`unmarshal`
(the environment-level `config.Marshal`/`Unmarshal`) into every handle
and never reads `dbConfig.Marshal`/`Unmarshal`, and `NewLmdb` applies no
msgpack default (only the separate `DefaultLmdbConfig` value happens to
carry msgpack).  With a per-database override (tokens 7/8) and no
environment codec the handle gets `none` (claim: 7/8); with both levels
set the handle gets the environment's 5/6 (claim: 7/8); with neither set
the handle gets `none` (claim: msgpack).  This contradicts the source's
own doc comments on `DbConfig` ("Marshal and Unmarshal ... defaults to
the parent LmdbEnv's methods.  Different Marshal and Unmarshal per
database is possible") and on `LmdbEnvConfig` ("Marshal and Unmarshal are
optional and defaults to github.com/shamaton/msgpack"). -/
theorem dbconfig_codec_overrides_ignored :
    ((NewLmdb c3CfgDbOverride).2.map (fun env =>
        (env.GetDatabase "a").map (fun db => (db.marshal, db.unmarshal))))
      = .ok (some (none, none)) ∧
    ((NewLmdb c3CfgBothOverrides).2.map (fun env =>
        (env.GetDatabase "a").map (fun db => (db.marshal, db.unmarshal))))
      = .ok (some (some 5, some 6)) ∧
    ((NewLmdb c3CfgNoOverrides).2.map (fun env =>
        (env.GetDatabase "a").map (fun db => (db.marshal, db.unmarshal))))
      = .ok (some (none, none)) :=
  ⟨rfl, rfl, rfl⟩

/-- C5: for every key whose stored value has zero length, `GetAndMarshal`
returns the zero-length decode error rather than filling the destination.
The handle `s` — and with it the stored decode function — is universally
quantified and the result is the same distinguished error for all of
them, which formalizes that the decode function is not invoked on the
zero-length bytes: the length guard fires before `s.unmarshal` is
consulted. -/
theorem getAndMarshal_zero_length_value_errors (s : Db M (UnmarshalFn α))
    (db : EngineDb) (key : Bytes) (h : dbLookup db key = some []) :
    s.GetAndMarshal db key = .error .zeroLengthBytes :=
  getAndMarshal_of_lookup_nil s db key h

theorem getAndMarshal_zero_length_value_errors_witness :
    dbLookup [([1], [])] [1] = some [] ∧
    Db.GetAndMarshal okCodecDb [([1], [])] [1]
      = .error .zeroLengthBytes :=
  ⟨rfl, getAndMarshal_zero_length_value_errors okCodecDb [([1], [])] [1] rfl⟩

/-- C6: `Del(k)` followed by `Get(k)` yields the engine's not-found
error (whether or not `k` was present before the delete), and `Del` of an
absent key returns the engine's not-found signal unchanged, leaving the
state untouched. -/
theorem del_then_get_not_found (s : Db M U) (db : EngineDb) (key : Bytes) :
    s.Get (s.Del db key).1 key = .error .notFound ∧
    (dbLookup db key = none → s.Del db key = (db, some .notFound)) := by
  constructor
  · cases hl : dbLookup db key with
    | some v =>
      simp [Db.Del, Db.UpdateTxn, UpdateLocked, txnDel, hl, Db.Get, txnGet,
        dbLookup_erase_self]
    | none =>
      simp [Db.Del, Db.UpdateTxn, UpdateLocked, txnDel, hl, Db.Get, txnGet]
  · intro h
    simp [Db.Del, Db.UpdateTxn, UpdateLocked, txnDel, h]

theorem del_then_get_not_found_witness :
    Db.Get rawDb ((Db.Del rawDb [] [5]).1) [5] = .error .notFound ∧
    Db.Del rawDb [] [5] = ([], some .notFound) :=
  ⟨(del_then_get_not_found rawDb [] [5]).1,
    (del_then_get_not_found rawDb [] [5]).2 rfl⟩

/-- C8: a configuration with an empty `Databases` list makes `NewLmdb`
return the "no databases is setup" error with an empty effect trace: in
particular the storage environment is never created or opened and the
dispatcher worker is never started (the length check is the first
statement of `NewLmdb`). -/
theorem newLmdb_empty_databases_fails_fast (cfg : LmdbEnvConfig M U)
    (h : cfg.Databases = []) :
    NewLmdb cfg = ([], .error .noDatabasesSetup) ∧
    InitEffect.workerStarted ∉ (NewLmdb cfg).1 ∧
    InitEffect.envOpened ∉ (NewLmdb cfg).1 := by
  have hmain : NewLmdb cfg = ([], .error .noDatabasesSetup) := by
    unfold NewLmdb
    rw [if_pos (by simp [h])]
  refine ⟨hmain, ?_, ?_⟩ <;> rw [hmain] <;> simp

theorem newLmdb_empty_databases_fails_fast_witness :
    emptyCfg.Databases = [] ∧
    NewLmdb emptyCfg = ([], .error .noDatabasesSetup) :=
  ⟨rfl, (newLmdb_empty_databases_fails_fast emptyCfg rfl).1⟩

/-- C10: after `Put(k, v)` where `v` is a zero-length raw byte slice
(stored verbatim, successfully), `GetAndMarshal(k, dest)` always returns
the zero-length error, for every handle and hence every decode function —
the stored empty blob is only readable through `Get` (which returns it,
the empty slice, successfully). -/
theorem put_empty_bytes_unreadable_via_decode
    (s : Db (MarshalFn α) (UnmarshalFn α)) (db : EngineDb) (key : Bytes) :
    (s.Put db key (.raw [])).2 = none ∧
    dbLookup (s.Put db key (.raw [])).1 key = some [] ∧
    s.GetAndMarshal (s.Put db key (.raw [])).1 key
      = .error .zeroLengthBytes ∧
    s.Get (s.Put db key (.raw [])).1 key = .ok [] := by
  have hput : s.Put db key (.raw []) = (dbInsert db key [], none) := by
    simp [Db.Put, Db.UpdateTxn, UpdateLocked, txnPut]
  refine ⟨by rw [hput], ?_, ?_, ?_⟩
  · rw [hput]
    exact dbLookup_insert_self db key []
  · rw [hput]
    exact getAndMarshal_of_lookup_nil s _ key (dbLookup_insert_self db key [])
  · rw [hput]
    simp [Db.Get, txnGet, dbLookup_insert_self, goCopy]

/-- C4: write requests are executed by the dispatcher strictly in the
order it receives them, one at a time.  Formally, over any sequence of
messages the worker receives: the results are delivered in exactly the
received request order (first conjunct: no reordering, batching or
dropping); the worker's start events occur in the received order (second
conjunct); and each transaction finishes before the next starts, so at
most one write transaction is open at any point of the trace (third
conjunct) — the `select` body executes each request synchronously to
completion before the loop receives the next message. -/
theorem dispatcher_fifo_single_writer (msgs : List WorkerMsg)
    (st : WorkerSt) :
    (runWorker msgs st).delivered.map Prod.fst =
        st.delivered.map Prod.fst ++ requestIds msgs ∧
    startIds (workerEvents msgs) = requestIds msgs ∧
    atMostOneOpen (workerEvents msgs) 0 = true := by
  refine ⟨?_, ?_, ?_⟩
  · induction msgs generalizing st with
    | nil => simp [runWorker, requestIds]
    | cons m rest ih =>
      cases m with
      | request i op =>
        simp only [runWorker, List.foldl] at ih ⊢
        rw [ih]
        simp [workerStep, requestIds]
      | quit =>
        simp only [runWorker, List.foldl] at ih ⊢
        rw [ih]
        simp [workerStep, requestIds]
  · induction msgs with
    | nil => rfl
    | cons m rest ih =>
      cases m with
      | request i op => simp [workerEvents, startIds, requestIds, ih]
      | quit => simp [workerEvents, startIds, requestIds, ih]
  · induction msgs with
    | nil => rfl
    | cons m rest ih =>
      cases m with
      | request i op => simp [workerEvents, atMostOneOpen, ih]
      | quit => simp [workerEvents, atMostOneOpen, ih]

/-- C7 counterexample: the claim states `GetSingleDatabase` errors
whenever the environment is configured with two or more databases.
`dupCfg` configures two databases (both named "a"); `NewLmdb` succeeds,
the name→handle map collapses to one entry, and `GetSingleDatabase`
returns a handle with a nil error — no error despite two configured
databases. -/
theorem getSingleDatabase_duplicate_names_counterexample :
    dupCfg.Databases.length = 2 ∧
    ((NewLmdb dupCfg).2.map (fun env => env.GetSingleDatabase.isOk))
      = .ok true :=
  ⟨rfl, rfl⟩

/-- C7 amended: `GetSingleDatabase` succeeds exactly when the
environment's name→handle map has one entry — equivalently, when the
configuration declares exactly one *distinct* database name (duplicate
names collapse into one map entry) — and then it returns the sole handle
with a nil error; with zero or two-or-more distinct names it returns an
error. -/
theorem getSingleDatabase_iff_one_distinct_name (cfg : LmdbEnvConfig M U)
    (env : LmdbEnvModel M U) (h : (NewLmdb cfg).2 = .ok env) :
    (env.GetSingleDatabase.isOk = true ↔
      distinctNameCount cfg.Databases = 1) ∧
    (∀ n db, env.databases = [(n, db)] → env.GetSingleDatabase = .ok db) := by
  obtain ⟨hdbs, -, -, -, -⟩ := newLmdb_ok_inv cfg env h
  constructor
  · rw [getSingleDatabase_isOk_iff]
    have hkeys : env.databases.map Prod.fst =
        keysAfter (cfg.Databases.map DbConfig.DbName) [] := by
      rw [hdbs]
      simpa using
        createLoop_keys cfg.Marshal cfg.Unmarshal cfg.Databases [] [] 0 0 []
    unfold distinctNameCount
    rw [← hkeys]
    simp
  · intro n db hd
    simp [LmdbEnvModel.GetSingleDatabase, hd]

theorem getSingleDatabase_iff_one_distinct_name_witness :
    (NewLmdb DefaultLmdbConfig).2 = .ok defaultEnv ∧
    (defaultEnv.GetSingleDatabase.isOk = true ↔
      distinctNameCount DefaultLmdbConfig.Databases = 1) ∧
    distinctNameCount DefaultLmdbConfig.Databases = 1 ∧
    defaultEnv.GetSingleDatabase.isOk = true :=
  ⟨rfl,
    (getSingleDatabase_iff_one_distinct_name DefaultLmdbConfig defaultEnv
      rfl).1,
    rfl, rfl⟩

/-- C9: for any configuration (duplicate names included), `NewLmdb`
succeeds with no duplicate-name error (the engine steps are modelled as
succeeding); the name→handle map holds one binding per name (`Nodup`
keys), and for every configured name `GetDatabase` returns the handle
allocated for the *last* configuration entry carrying that name
(`createdFrom` is the entry index, modelling Go pointer identity) — the
handles allocated for earlier same-named entries are no longer reachable
from the map. -/
theorem newLmdb_duplicate_names_last_wins (cfg : LmdbEnvConfig M U)
    (h : cfg.Databases ≠ []) :
    ∃ env, (NewLmdb cfg).2 = .ok env ∧
      (env.databases.map Prod.fst).Nodup ∧
      ∀ n j, lastIdxNamed cfg.Databases n = some j →
        ∃ db, env.GetDatabase n = some db ∧ db.createdFrom = j ∧
          db.marshal = cfg.Marshal ∧ db.unmarshal = cfg.Unmarshal := by
  obtain ⟨env, henv⟩ := newLmdb_ok_of_nonempty cfg h
  obtain ⟨hdbs, -, -, -, -⟩ := newLmdb_ok_inv cfg env henv
  refine ⟨env, henv, ?_, ?_⟩
  · have hkeys : env.databases.map Prod.fst =
        keysAfter (cfg.Databases.map DbConfig.DbName) [] := by
      rw [hdbs]
      simpa using
        createLoop_keys cfg.Marshal cfg.Unmarshal cfg.Databases [] [] 0 0 []
    rw [hkeys]
    exact keysAfter_nodup _ _ List.nodup_nil
  · intro n j hj
    unfold LmdbEnvModel.GetDatabase
    rw [hdbs]
    simpa using
      createLoop_lookup_some cfg.Marshal cfg.Unmarshal cfg.Databases n j hj
        [] [] 0 0 []

theorem newLmdb_duplicate_names_last_wins_witness :
    dupCfg.Databases ≠ [] ∧
    lastIdxNamed dupCfg.Databases "a" = some 1 ∧
    (NewLmdb dupCfg).2 = .ok dupEnv ∧
    (dupEnv.databases.map Prod.fst).Nodup ∧
    ∃ db, dupEnv.GetDatabase "a" = some db ∧ db.createdFrom = 1 ∧
      db.marshal = dupCfg.Marshal ∧ db.unmarshal = dupCfg.Unmarshal := by
  obtain ⟨env, henv, hnd, hlast⟩ :=
    newLmdb_duplicate_names_last_wins dupCfg (by decide)
  have heq : env = dupEnv := by
    have h2 : (NewLmdb dupCfg).2 = .ok dupEnv := rfl
    rw [henv] at h2
    exact (Except.ok.injEq _ _).mp h2
  subst heq
  exact ⟨by decide, by decide, henv, hnd, hlast "a" 1 (by decide)⟩

theorem dispatcher_fifo_single_writer_witness :
    (runWorker c4Msgs workerInit).delivered.map Prod.fst = [3, 1, 2] ∧
    startIds (workerEvents c4Msgs) = [3, 1, 2] ∧
    atMostOneOpen (workerEvents c4Msgs) 0 = true :=
  ⟨(dispatcher_fifo_single_writer c4Msgs workerInit).1.trans rfl,
    (dispatcher_fifo_single_writer c4Msgs workerInit).2.1.trans rfl,
    (dispatcher_fifo_single_writer c4Msgs workerInit).2.2⟩

theorem put_empty_bytes_unreadable_via_decode_witness :
    (Db.Put okCodecDb [] [9] (.raw [])).2 = none ∧
    Db.GetAndMarshal okCodecDb (Db.Put okCodecDb [] [9] (.raw [])).1 [9]
      = .error .zeroLengthBytes ∧
    Db.Get okCodecDb (Db.Put okCodecDb [] [9] (.raw [])).1 [9] = .ok [] :=
  ⟨(put_empty_bytes_unreadable_via_decode okCodecDb [] [9]).1,
    (put_empty_bytes_unreadable_via_decode okCodecDb [] [9]).2.2.1,
    (put_empty_bytes_unreadable_via_decode okCodecDb [] [9]).2.2.2⟩
